import Mathlib

/-!
Verification of the stream-adaptation layer of `worker/src/streams.rs` and its
error taxonomy `worker/src/error.rs`.

The embedding is shallow:
* `Error` mirrors the `Error` enum; its `toString` mirrors the `thiserror`
  display templates (`#[error("...")]` attributes).  External error payloads
  (`matchit::InsertError`, `serde_json::Error`, `url::ParseError`) are carried
  as their rendered message strings, since only their `Display` output is used.
* `JsValue` is modelled by its two observations used in the code: `render`
  (what the imported JS `String(value)` function returns) and `bytes`
  (what `Uint8Array::from(value).to_vec()` returns; in the source this cast
  is unchecked and total).
* The host streams are modelled as the finite list of items they yield before
  signalling end-of-sequence: each item is `Except err val` mirroring
  `Result<JsValue, JsValue>` (for `ByteStream`'s inner `IntoStream`) or
  `Result<Vec<u8>, Error>` (for `FixedLengthStream`'s inner stream).
* `poll_next` functions mirror the Rust `poll_next` bodies as one-step state
  transitions; `run`-style functions drive them the way a consumer does,
  stopping at the first error or end-of-sequence (the spec leaves post-error
  polling undefined).
* Machine integers (`u64` lengths and counters, `u16` status codes) are
  modelled as `Nat`; the counters sum physical byte counts and cannot
  approach `2^64` on any realizable input, so wrap-around is immaterial.
-/

/-- Mirrors `enum Error` in `worker/src/error.rs`.  Variants wrapping foreign
error types carry that error's rendered message. -/
inductive Error where
  | BadEncoding : Error
  | BodyUsed : Error
  | Json : String → Nat → Error
  | JsError : String → Error
  | BindingError : String → Error
  | RouteNoDataError : Error
  | InvalidStatusCode : Nat → Error
  | RouteInsertError : String → Error
  | RustError : String → Error
  | SerdeJsonError : String → Error
  | SerdeWasmBindgenError : String → Error
  | KvError : String → Error
  | UrlParseError : String → Error
deriving DecidableEq, Repr

/-- Mirrors the `#[error("...")]` display template of each variant
(`Display` via `thiserror`); this is the `e.to_string()` used by the code. -/
def Error.toString : Error → String
  | Error.BadEncoding => "content-type mismatch"
  | Error.BodyUsed => "body has already been read"
  | Error.Json m s => m ++ " (status: " ++ Nat.repr s ++ ")"
  | Error.JsError m => "Javascript error: " ++ m
  | Error.BindingError n => "no binding found for `" ++ n ++ "`"
  | Error.RouteNoDataError => "route has no corresponding shared data"
  | Error.InvalidStatusCode c => "invalid status code: " ++ Nat.repr c
  | Error.RouteInsertError m => "failed to insert route: " ++ m
  | Error.RustError m => "Serde Error: " ++ m
  | Error.SerdeJsonError m => "Serde Error: " ++ m
  | Error.SerdeWasmBindgenError m => "Serde WASM bindgen Error: " ++ m
  | Error.KvError m => "Kv Error: " ++ m
  | Error.UrlParseError m => "url parse error: " ++ m

/-- A host value, observed through the two operations the code applies to it:
`String(value)` (field `render`) and `Uint8Array::from(value).to_vec()`
(field `bytes`).  The cast to `Uint8Array` in the source is an unchecked,
total conversion, hence `bytes` is total. -/
structure JsValue where
  render : String
  bytes : List Nat
deriving DecidableEq, Repr

/-- Mirrors `js_sys::Uint8Array` as the byte contents observed by `to_vec`. -/
structure Uint8Array where
  data : List Nat
deriving DecidableEq, Repr

/-- Mirrors `Uint8Array::from(value: JsValue)` (an unchecked cast in the
generated bindings; never fails). -/
def Uint8Array.fromValue (v : JsValue) : Uint8Array := ⟨v.bytes⟩

/-- Mirrors `Uint8Array::to_vec`. -/
def Uint8Array.to_vec (a : Uint8Array) : List Nat := a.data

/-- Mirrors `impl From<&str> for Error`: `Error::RustError(a.to_string())`. -/
def Error.fromStr (a : String) : Error := Error.RustError a

/-- Mirrors `impl From<String> for Error`: `Error::RustError(a.to_string())`. -/
def Error.fromString (a : String) : Error := Error.RustError a

/-- Mirrors `impl From<JsValue> for Error`: `Error::JsError(to_string(&value))`
where `to_string` is the imported JS `String` function. -/
def Error.fromJs (value : JsValue) : Error := Error.JsError value.render

/-- Mirrors `impl From<Error> for JsValue`:
`JsValue::from_str(&e.to_string())`.  A JS string coerced to `Uint8Array` by
the unchecked cast observes no bytes, hence `bytes := []`. -/
def JsValue.fromError (e : Error) : JsValue := ⟨e.toString, []⟩

/-- The Byte-Sequence Adapter.  The wrapped `IntoStream` is modelled by the
finite list of `Result<JsValue, JsValue>` items it yields before
end-of-sequence. -/
structure ByteStream where
  inner : List (Except JsValue JsValue)
deriving Repr

/-- Mirrors `<ByteStream as Stream>::poll_next` as a one-step transition:
`none` is `Poll::Ready(None)` (end-of-sequence).  The inner item is mapped by
`res.map(Uint8Array::from).map_err(Error::from)`; then an `Ok` value yields
its `to_vec`, an `Err(e)` with `e.to_string() == "Error: aborted"` yields
end-of-sequence, and any other `Err(e)` yields the error. -/
def ByteStream.poll_next (s : ByteStream) :
    Option (Except Error (List Nat)) × ByteStream :=
  match s.inner with
  | [] => (none, s)
  | res :: rest =>
    let item : Except Error Uint8Array :=
      Except.mapError Error.fromJs (Except.map Uint8Array.fromValue res)
    match item with
    | Except.ok value => (some (Except.ok value.to_vec), ⟨rest⟩)
    | Except.error e =>
      if e.toString = "Error: aborted" then (none, ⟨rest⟩)
      else (some (Except.error e), ⟨rest⟩)

/-- The trace a consumer observes when polling a `ByteStream` until the first
end-of-sequence or error signal: the yielded `Ok` chunks in order, ended by
the error if one is yielded. -/
def ByteStream.runItems : List (Except JsValue JsValue) → List (Except Error (List Nat))
  | [] => []
  | res :: rest =>
    match Except.mapError Error.fromJs (Except.map Uint8Array.fromValue res) with
    | Except.ok value => Except.ok value.to_vec :: ByteStream.runItems rest
    | Except.error e =>
      if e.toString = "Error: aborted" then [] else [Except.error e]

/-- Consumer trace of a `ByteStream`, driven through `poll_next`. -/
def ByteStream.run (s : ByteStream) : List (Except Error (List Nat)) :=
  ByteStream.runItems s.inner

/-- `run` is the consumer-side iteration of `poll_next`: one poll step
determines the head of the trace. -/
theorem byteStream_run_poll_step (s : ByteStream) :
    s.run =
      match s.poll_next with
      | (none, _) => []
      | (some (Except.error e), _) => [Except.error e]
      | (some (Except.ok c), s') => Except.ok c :: s'.run := by
  rcases s with ⟨_ | ⟨v | v, rest⟩⟩
  · rfl
  · by_cases hab : (Error.fromJs v).toString = "Error: aborted" <;>
      simp [ByteStream.run, ByteStream.runItems, ByteStream.poll_next,
        Except.map, Except.mapError, hab]
  · rfl

/-- The error built by `FixedLengthStream::poll_next` on a length mismatch:
`Error::from(format!("fixed length stream had different length than expected
(expected {}, got {})", length, bytes_read))`, going through
`impl From<String> for Error`. -/
def Error.fixedLengthMismatch (length bytes_read : Nat) : Error :=
  Error.fromString
    ("fixed length stream had different length than expected (expected "
      ++ Nat.repr length ++ (", got " ++ (Nat.repr bytes_read ++ ")")))

/-- The Fixed-Length Wrapper.  The boxed inner stream is modelled by the
finite list of `Result<Vec<u8>, Error>` items it yields before
end-of-sequence. -/
structure FixedLengthStream where
  length : Nat
  bytes_read : Nat
  inner : List (Except Error (List Nat))

/-- Mirrors `FixedLengthStream::wrap`: stores the declared length, a
zero-initialized running counter, and the inner stream. -/
def FixedLengthStream.wrap (stream : List (Except Error (List Nat)))
    (length : Nat) : FixedLengthStream :=
  { length := length, bytes_read := 0, inner := stream }

/-- Mirrors `<FixedLengthStream as Stream>::poll_next` as a one-step
transition: an inner error is returned as-is before any counter update;
an inner chunk first bumps `bytes_read` by its length, then either trips the
overflow check or is yielded unchanged; inner end-of-sequence yields the
mismatch error when the counter differs from the declared length, otherwise
end-of-sequence. -/
def FixedLengthStream.poll_next (s : FixedLengthStream) :
    Option (Except Error (List Nat)) × FixedLengthStream :=
  match s.inner with
  | res :: rest =>
    match res with
    | Except.error err => (some (Except.error err), { s with inner := rest })
    | Except.ok chunk =>
      let bytes_read := s.bytes_read + chunk.length
      if bytes_read > s.length then
        (some (Except.error (Error.fixedLengthMismatch s.length bytes_read)),
          { s with bytes_read := bytes_read, inner := rest })
      else
        (some (Except.ok chunk),
          { s with bytes_read := bytes_read, inner := rest })
  | [] =>
    if s.bytes_read ≠ s.length then
      (some (Except.error (Error.fixedLengthMismatch s.length s.bytes_read)), s)
    else
      (none, s)

/-- The trace a consumer observes when polling a Fixed-Length Wrapper with
declared length `length` and current counter `bytes_read` until the first
end-of-sequence or error signal. -/
def FixedLengthStream.runFrom (length : Nat) :
    Nat → List (Except Error (List Nat)) → List (Except Error (List Nat))
  | bytes_read, [] =>
    if bytes_read ≠ length then
      [Except.error (Error.fixedLengthMismatch length bytes_read)]
    else []
  | _, Except.error err :: _ => [Except.error err]
  | bytes_read, Except.ok chunk :: rest =>
    let bytes_read' := bytes_read + chunk.length
    if bytes_read' > length then
      [Except.error (Error.fixedLengthMismatch length bytes_read')]
    else
      Except.ok chunk :: FixedLengthStream.runFrom length bytes_read' rest

/-- Consumer trace of a Fixed-Length Wrapper, driven through `poll_next`. -/
def FixedLengthStream.run (s : FixedLengthStream) :
    List (Except Error (List Nat)) :=
  FixedLengthStream.runFrom s.length s.bytes_read s.inner

/-- `run` is the consumer-side iteration of `poll_next`: one poll step
determines the head of the trace. -/
theorem fixedLength_run_poll_step (s : FixedLengthStream) :
    s.run =
      match s.poll_next with
      | (none, _) => []
      | (some (Except.error e), _) => [Except.error e]
      | (some (Except.ok c), s') => Except.ok c :: s'.run := by
  rcases s with ⟨L, b, _ | ⟨err | chunk, rest⟩⟩
  · by_cases hb : b ≠ L <;>
      simp [FixedLengthStream.run, FixedLengthStream.runFrom,
        FixedLengthStream.poll_next, hb]
  · rfl
  · by_cases hof : b + chunk.length > L <;>
      simp [FixedLengthStream.run, FixedLengthStream.runFrom,
        FixedLengthStream.poll_next, hof]

/-- Total byte length of a list of chunks. -/
def sumLen : List (List Nat) → Nat
  | [] => 0
  | c :: rest => c.length + sumLen rest

/-- Byte length contributed by the `Ok` chunks of a list of stream items. -/
def sumOkLen : List (Except Error (List Nat)) → Nat
  | [] => 0
  | Except.ok c :: rest => c.length + sumOkLen rest
  | Except.error _ :: rest => sumOkLen rest

/-- Iterated polling: outputs of `n` consecutive `poll_next` calls and the
state they leave behind. -/
def FixedLengthStream.pollN :
    Nat → FixedLengthStream →
      List (Option (Except Error (List Nat))) × FixedLengthStream
  | 0, s => ([], s)
  | n + 1, s =>
    let step := s.poll_next
    let rest := FixedLengthStream.pollN n step.2
    (step.1 :: rest.1, rest.2)

/-- Mirrors `worker_sys::FixedLengthStream` as observed through the two
constructors the conversion uses: `FixedLengthStreamSys::new(u32)` and
`FixedLengthStreamSys::new_big_int(BigInt)`.  The carried `Nat` is the length
the constructor received (the `as u32` cast is value-preserving on the branch
that uses it, since there `length < u32::MAX`). -/
inductive FixedLengthStreamSys where
  | standard : Nat → FixedLengthStreamSys
  | bigInt : Nat → FixedLengthStreamSys
deriving DecidableEq, Repr

/-- `u32::MAX`. -/
def u32Max : Nat := 4294967295

/-- Mirrors the constructor choice in
`impl From<FixedLengthStream> for FixedLengthStreamSys`:
`if stream.length < u32::MAX as u64 { new(stream.length as u32) }
else { new_big_int(BigInt::from(stream.length)) }`. -/
def FixedLengthStreamSys.fromFixedLengthStream (stream : FixedLengthStream) :
    FixedLengthStreamSys :=
  if stream.length < u32Max then FixedLengthStreamSys.standard stream.length
  else FixedLengthStreamSys.bigInt stream.length

/-- The display template of `JsError` always carries the
`"Javascript error: "` prefix, so it can never render as the 14-character
string `"Error: aborted"`. -/
theorem jsErrorRender_ne_aborted (r : String) :
    ("Javascript error: " ++ r) ≠ "Error: aborted" := by
  intro h
  have hlen := congrArg String.length h
  rw [String.length_append] at hlen
  have h1 : ("Javascript error: " : String).length = 18 := rfl
  have h2 : ("Error: aborted" : String).length = 14 := rfl
  rw [h1, h2] at hlen
  omega

/-- C1: the adapter is claimed to turn a host error rendering exactly
`"Error: aborted"` into end-of-sequence with no error yield.  The code
converts the host value into `Error::JsError` first and then compares that
error's rendering (which always carries the `"Javascript error: "` template
prefix) against `"Error: aborted"`, so the guard never fires: on such a host
error the adapter yields the error instead of end-of-sequence. -/
theorem byteStream_aborted_yields_error :
    ByteStream.run ⟨[Except.error ⟨"Error: aborted", []⟩]⟩ =
      [Except.error (Error.JsError "Error: aborted")]
    ∧ (Error.fromJs ⟨"Error: aborted", []⟩).toString =
        "Javascript error: Error: aborted" :=
  ⟨rfl, rfl⟩

/-- C5: whenever the inner sequence yields an error, the wrapper's poll
yields that exact error value unchanged, performs no length check on that
pull (the declared length and counter are arbitrary), and leaves the running
byte counter unchanged. -/
theorem fixedLength_propagates_inner_error (s : FixedLengthStream)
    (err : Error) (rest : List (Except Error (List Nat)))
    (h : s.inner = Except.error err :: rest) :
    s.poll_next = (some (Except.error err),
      { length := s.length, bytes_read := s.bytes_read, inner := rest }) := by
  rcases s with ⟨L, b, inner⟩
  cases h
  rfl

/-- Witness for C5 at a concrete state whose counter already disagrees with
the declared length: the inner error is still passed through untouched. -/
theorem fixedLength_propagates_inner_error_witness :
    FixedLengthStream.poll_next
        { length := 5, bytes_read := 2,
          inner := [Except.error Error.BodyUsed, Except.ok [9]] } =
      (some (Except.error Error.BodyUsed),
        { length := 5, bytes_read := 2, inner := [Except.ok [9]] }) :=
  fixedLength_propagates_inner_error
    { length := 5, bytes_read := 2,
      inner := [Except.error Error.BodyUsed, Except.ok [9]] }
    Error.BodyUsed [Except.ok [9]] rfl

/-- C6: a host error whose rendering is anything other than
`"Error: aborted"` surfaces as exactly one `Error::JsError` carrying that
rendering, and host values on the `Ok` path always coerce to a byte buffer
(the cast is total, so no coercion-failure path exists). -/
theorem byteStream_error_yields_jsError (v : JsValue)
    (rest : List (Except JsValue JsValue))
    (h : v.render ≠ "Error: aborted") :
    ByteStream.runItems (Except.error v :: rest) =
      [Except.error (Error.JsError v.render)]
    ∧ ∀ (w : JsValue) (tail : List (Except JsValue JsValue)),
        ByteStream.runItems (Except.ok w :: tail) =
          Except.ok w.bytes :: ByteStream.runItems tail := by
  have hne : (Error.JsError v.render).toString ≠ "Error: aborted" :=
    jsErrorRender_ne_aborted v.render
  refine ⟨?_, fun w tail => rfl⟩
  simp [ByteStream.runItems, Except.map, Except.mapError, hne, Error.fromJs]

/-- Witness for C6 at a concrete host error and a concrete host value. -/
theorem byteStream_error_yields_jsError_witness :
    "boom" ≠ "Error: aborted"
    ∧ ByteStream.runItems [Except.error ⟨"boom", []⟩] =
        [Except.error (Error.JsError "boom")]
    ∧ ByteStream.runItems [Except.ok ⟨"", [7, 8]⟩] = [Except.ok [7, 8]] := by
  have h := byteStream_error_yields_jsError ⟨"boom", []⟩ [] (by decide)
  exact ⟨by decide, h.1, h.2 ⟨"", [7, 8]⟩ []⟩

/-- C7: every conversion into an `Error` is total and lands in the stated
kind; converting an `Error` to the host-reportable value never fails and
renders via the kind's display template, with `Json` rendering exactly as
`"{message} (status: {status})"`. -/
theorem error_conversions_total :
    (∀ s : String, Error.fromStr s = Error.RustError s)
    ∧ (∀ s : String, Error.fromString s = Error.RustError s)
    ∧ (∀ v : JsValue, Error.fromJs v = Error.JsError v.render)
    ∧ (∀ e : Error, (JsValue.fromError e).render = Error.toString e)
    ∧ (∀ (m : String) (st : Nat),
        Error.toString (Error.Json m st) =
          m ++ " (status: " ++ Nat.repr st ++ ")") :=
  ⟨fun _ => rfl, fun _ => rfl, fun _ => rfl, fun _ => rfl, fun _ _ => rfl⟩

/-- C10: `RustError` renders with the `"Serde Error: "` template, identical
to `SerdeJsonError`'s, and the length-mismatch error of the Fixed-Length
Wrapper renders as
`"Serde Error: fixed length stream had different length than expected
(expected L, got N)"`. -/
theorem rustError_rendering (m : String) (L N : Nat) :
    (JsValue.fromError (Error.RustError m)).render = "Serde Error: " ++ m
    ∧ Error.toString (Error.SerdeJsonError m) =
        Error.toString (Error.RustError m)
    ∧ Error.toString (Error.fixedLengthMismatch L N) =
        "Serde Error: "
          ++ ("fixed length stream had different length than expected (expected "
            ++ Nat.repr L ++ (", got " ++ (Nat.repr N ++ ")"))) :=
  ⟨rfl, rfl, rfl⟩

/-- C8 counterexample: the declared length `u32::MAX = 4294967295` is
representable in the standard `u32` range, yet the conversion picks the
big-integer constructor, because the code branches on `length < u32::MAX`
(strict). -/
theorem fixedLengthSys_boundary_counterexample :
    FixedLengthStreamSys.fromFixedLengthStream
        (FixedLengthStream.wrap [] 4294967295) =
      FixedLengthStreamSys.bigInt 4294967295
    ∧ (FixedLengthStreamSys.fromFixedLengthStream
          (FixedLengthStream.wrap [] 4294967295)
        == FixedLengthStreamSys.standard 4294967295) = false
    ∧ 4294967295 ≤ u32Max := by
  refine ⟨?_, ?_, ?_⟩ <;> decide

/-- C8 (amended): the constructor is selected purely by comparing the
declared length against `u32::MAX`: strictly below it the standard-range
constructor is used, at or above it the big-integer constructor is used. -/
theorem fixedLengthSys_ctor_selection (s : FixedLengthStream) :
    (s.length < u32Max →
      FixedLengthStreamSys.fromFixedLengthStream s =
        FixedLengthStreamSys.standard s.length)
    ∧ (u32Max ≤ s.length →
      FixedLengthStreamSys.fromFixedLengthStream s =
        FixedLengthStreamSys.bigInt s.length) := by
  constructor
  · intro h
    simp [FixedLengthStreamSys.fromFixedLengthStream, h]
  · intro h
    simp [FixedLengthStreamSys.fromFixedLengthStream, Nat.not_lt.mpr h]

/-- Witness for the amended C8 on both sides of the boundary. -/
theorem fixedLengthSys_ctor_selection_witness :
    FixedLengthStreamSys.fromFixedLengthStream (FixedLengthStream.wrap [] 10) =
      FixedLengthStreamSys.standard 10
    ∧ FixedLengthStreamSys.fromFixedLengthStream
        (FixedLengthStream.wrap [] 4294967296) =
      FixedLengthStreamSys.bigInt 4294967296 :=
  ⟨(fixedLengthSys_ctor_selection (FixedLengthStream.wrap [] 10)).1
      (by decide),
    (fixedLengthSys_ctor_selection (FixedLengthStream.wrap [] 4294967296)).2
      (by decide)⟩

/-- Helper: when the counter plus the remaining chunks' total equals the
declared length, the wrapper passes every chunk through and ends cleanly. -/
theorem runFrom_all_ok (L : Nat) (chunks : List (List Nat)) :
    ∀ b, b + sumLen chunks = L →
      FixedLengthStream.runFrom L b (List.map Except.ok chunks) =
        List.map Except.ok chunks := by
  induction chunks with
  | nil =>
    intro b hb
    simp [sumLen] at hb
    simp [FixedLengthStream.runFrom, hb]
  | cons c cs ih =>
    intro b hb
    simp [sumLen] at hb
    have hof : ¬ b + c.length > L := by omega
    simp only [List.map_cons, FixedLengthStream.runFrom]
    rw [if_neg hof, ih (b + c.length) (by omega)]

/-- Helper: when the remaining chunks first push the counter above the
declared length at index `k`, the wrapper passes through the first `k`
chunks, withholds the offending one, and ends with the mismatch error whose
`actual` includes the offending chunk. -/
theorem runFrom_overflow (L : Nat) (chunks : List (List Nat)) :
    ∀ k b, k < chunks.length →
      b + sumLen (List.take k chunks) ≤ L →
      L < b + sumLen (List.take (k + 1) chunks) →
      FixedLengthStream.runFrom L b (List.map Except.ok chunks) =
        List.map Except.ok (List.take k chunks)
          ++ [Except.error (Error.fixedLengthMismatch L
              (b + sumLen (List.take (k + 1) chunks)))] := by
  induction chunks with
  | nil =>
    intro k b hk _ _
    simp at hk
  | cons c cs ih =>
    intro k b hk hle hgt
    cases k with
    | zero =>
      simp [sumLen] at hgt
      have hof : b + c.length > L := by omega
      simp [List.map_cons, FixedLengthStream.runFrom, hof, sumLen]
    | succ k =>
      have hk' : k < cs.length := by simpa using hk
      simp [sumLen] at hle hgt
      have hle' : b + c.length + sumLen (List.take k cs) ≤ L := by omega
      have hgt' : L < b + c.length + sumLen (List.take (k + 1) cs) := by omega
      have hof : ¬ b + c.length > L := by omega
      simp only [List.map_cons, FixedLengthStream.runFrom]
      rw [if_neg hof, ih k (b + c.length) hk' hle' hgt']
      simp [sumLen, Nat.add_assoc]

/-- Helper: when the remaining chunks' total leaves the counter short of the
declared length, the wrapper passes every chunk through and ends with the
mismatch error carrying the realized total. -/
theorem runFrom_short (L : Nat) (chunks : List (List Nat)) :
    ∀ b, b + sumLen chunks < L →
      FixedLengthStream.runFrom L b (List.map Except.ok chunks) =
        List.map Except.ok chunks
          ++ [Except.error (Error.fixedLengthMismatch L (b + sumLen chunks))] := by
  induction chunks with
  | nil =>
    intro b hb
    simp [sumLen] at hb
    have hne : b ≠ L := by omega
    simp [FixedLengthStream.runFrom, hne, sumLen]
  | cons c cs ih =>
    intro b hb
    simp [sumLen] at hb
    have hof : ¬ b + c.length > L := by omega
    simp only [List.map_cons, FixedLengthStream.runFrom]
    rw [if_neg hof, ih (b + c.length) (by omega)]
    simp [sumLen, Nat.add_assoc]

/-- C2: for every declared length `L` and chunk sequence summing to exactly
`L` (including `L = 0` with zero chunks), the wrapper yields every chunk
unchanged, in order, followed by end-of-sequence, with no error. -/
theorem fixedLength_exact_length (L : Nat) (chunks : List (List Nat))
    (h : sumLen chunks = L) :
    FixedLengthStream.run
        (FixedLengthStream.wrap (List.map Except.ok chunks) L) =
      List.map Except.ok chunks :=
  runFrom_all_ok L chunks 0 (by simpa using h)

/-- Witness for C2 at a concrete sequence, plus the `L = 0` boundary. -/
theorem fixedLength_exact_length_witness :
    (sumLen [[1, 2], [3]] = 3
      ∧ FixedLengthStream.run
          (FixedLengthStream.wrap (List.map Except.ok [[1, 2], [3]]) 3) =
        List.map Except.ok [[1, 2], [3]])
    ∧ (sumLen [] = 0
      ∧ FixedLengthStream.run (FixedLengthStream.wrap (List.map Except.ok []) 0) =
        List.map Except.ok []) :=
  ⟨⟨by decide, fixedLength_exact_length 3 [[1, 2], [3]] (by decide)⟩,
    ⟨by decide, fixedLength_exact_length 0 [] (by decide)⟩⟩

/-- C3: when the cumulative length first exceeds `L` at chunk index `k`, the
wrapper yields the first `k` chunks unchanged, withholds the offending chunk,
and yields exactly one `RustError` reporting `expected = L` and `actual =`
the cumulative count including the offending chunk. -/
theorem fixedLength_overflow_error (L : Nat) (chunks : List (List Nat))
    (k : Nat) (hk : k < chunks.length)
    (hle : sumLen (List.take k chunks) ≤ L)
    (hgt : L < sumLen (List.take (k + 1) chunks)) :
    FixedLengthStream.run
        (FixedLengthStream.wrap (List.map Except.ok chunks) L) =
      List.map Except.ok (List.take k chunks)
        ++ [Except.error (Error.fixedLengthMismatch L
            (sumLen (List.take (k + 1) chunks)))] := by
  have h := runFrom_overflow L chunks k 0 hk (by simpa using hle)
    (by simpa using hgt)
  simpa using h

/-- Witness for C3: chunks `[1,2]` then `[3,4]` against declared length 3;
the second chunk overflows and the error reports expected 3, got 4. -/
theorem fixedLength_overflow_error_witness :
    (1 < 2 ∧ sumLen (List.take 1 [[1, 2], [3, 4]]) ≤ 3
      ∧ 3 < sumLen (List.take 2 [[1, 2], [3, 4]]))
    ∧ FixedLengthStream.run
        (FixedLengthStream.wrap (List.map Except.ok [[1, 2], [3, 4]]) 3) =
      [Except.ok [1, 2], Except.error (Error.fixedLengthMismatch 3 4)] := by
  have h := fixedLength_overflow_error 3 [[1, 2], [3, 4]] 1 (by decide)
    (by decide) (by decide)
  exact ⟨⟨by decide, by decide, by decide⟩, h⟩

/-- C4: when the inner sequence ends with cumulative total `T < L`, the
wrapper yields all chunks unchanged and then exactly one `RustError`
reporting `expected = L` and `actual = T`. -/
theorem fixedLength_shortfall_error (L : Nat) (chunks : List (List Nat))
    (h : sumLen chunks < L) :
    FixedLengthStream.run
        (FixedLengthStream.wrap (List.map Except.ok chunks) L) =
      List.map Except.ok chunks
        ++ [Except.error (Error.fixedLengthMismatch L (sumLen chunks))] := by
  have hh := runFrom_short L chunks 0 (by simpa using h)
  simpa using hh

/-- Witness for C4: chunks totalling 3 against declared length 5. -/
theorem fixedLength_shortfall_error_witness :
    sumLen [[1], [2, 3]] < 5
    ∧ FixedLengthStream.run
        (FixedLengthStream.wrap (List.map Except.ok [[1], [2, 3]]) 5) =
      [Except.ok [1], Except.ok [2, 3],
        Except.error (Error.fixedLengthMismatch 5 3)] := by
  have h := fixedLength_shortfall_error 5 [[1], [2, 3]] (by decide)
  exact ⟨by decide, h⟩

/-- C9: after any number of polls, the running byte counter equals its
starting value plus the total length of the `Ok` chunks among the inner
items consumed so far — each chunk counted exactly once, in the same poll
that receives it — and every chunk the wrapper yields at poll `i` is the
`i`-th inner item, unchanged (chunks come out in the inner sequence's
order). -/
theorem fixedLength_counter_and_order (s : FixedLengthStream) (n : Nat) :
    (FixedLengthStream.pollN n s).2.bytes_read =
        s.bytes_read + sumOkLen (List.take n s.inner)
    ∧ ∀ (i : Nat) (c : List Nat),
        (FixedLengthStream.pollN n s).1.get? i = some (some (Except.ok c)) →
        s.inner.get? i = some (Except.ok c) := by
  induction n generalizing s with
  | zero => simp [FixedLengthStream.pollN, sumOkLen]
  | succ n ih =>
    rcases s with ⟨L, b, _ | ⟨err | chunk, rest⟩⟩
    · have hstate : (FixedLengthStream.poll_next ⟨L, b, []⟩).2 = ⟨L, b, []⟩ := by
        by_cases hb : b ≠ L <;> simp [FixedLengthStream.poll_next, hb]
      constructor
      · show (FixedLengthStream.pollN n
            (FixedLengthStream.poll_next ⟨L, b, []⟩).2).2.bytes_read = _
        rw [hstate]
        simpa [sumOkLen] using (ih ⟨L, b, []⟩).1
      · intro i c h
        cases i with
        | zero =>
          by_cases hb : b ≠ L <;>
            simp [FixedLengthStream.pollN, FixedLengthStream.poll_next, hb,
              List.get?_cons_zero] at h
        | succ i =>
          have h' : (FixedLengthStream.pollN n
              (FixedLengthStream.poll_next ⟨L, b, []⟩).2).1.get? i =
              some (some (Except.ok c)) := h
          rw [hstate] at h'
          exact Option.noConfusion ((ih ⟨L, b, []⟩).2 i c h')
    · constructor
      · show (FixedLengthStream.pollN n ⟨L, b, rest⟩).2.bytes_read = _
        simpa [sumOkLen] using (ih ⟨L, b, rest⟩).1
      · intro i c h
        cases i with
        | zero =>
          simp [FixedLengthStream.pollN, FixedLengthStream.poll_next,
            List.get?_cons_zero] at h
        | succ i =>
          have h' : (FixedLengthStream.pollN n ⟨L, b, rest⟩).1.get? i =
              some (some (Except.ok c)) := h
          exact (ih ⟨L, b, rest⟩).2 i c h'
    · have hstate : (FixedLengthStream.poll_next ⟨L, b, Except.ok chunk :: rest⟩).2 =
          ⟨L, b + chunk.length, rest⟩ := by
        by_cases hof : b + chunk.length > L <;>
          simp [FixedLengthStream.poll_next, hof]
      constructor
      · show (FixedLengthStream.pollN n
            (FixedLengthStream.poll_next ⟨L, b, Except.ok chunk :: rest⟩).2).2.bytes_read = _
        rw [hstate]
        simpa [sumOkLen, Nat.add_assoc] using (ih ⟨L, b + chunk.length, rest⟩).1
      · intro i c h
        cases i with
        | zero =>
          by_cases hof : b + chunk.length > L
          · simp [FixedLengthStream.pollN, FixedLengthStream.poll_next, hof,
              List.get?_cons_zero] at h
          · simp [FixedLengthStream.pollN, FixedLengthStream.poll_next, hof,
              List.get?_cons_zero] at h
            simp [List.get?_cons_zero, h]
        | succ i =>
          have h' : (FixedLengthStream.pollN n
              (FixedLengthStream.poll_next ⟨L, b, Except.ok chunk :: rest⟩).2).1.get? i =
              some (some (Except.ok c)) := h
          rw [hstate] at h'
          exact (ih ⟨L, b + chunk.length, rest⟩).2 i c h'

/-- Witness for C9 on a concrete wrapper polled four times (two chunks, one
inner error, then end-of-sequence): the counter equals the summed chunk
lengths, and the chunk yielded at poll 0 is inner item 0. -/
theorem fixedLength_counter_and_order_witness :
    (FixedLengthStream.pollN 4
        { length := 10, bytes_read := 0,
          inner := [Except.ok [1, 2], Except.error Error.BodyUsed,
            Except.ok [3]] }).2.bytes_read =
      0 + sumOkLen (List.take 4
        [Except.ok [1, 2], Except.error Error.BodyUsed, Except.ok [3]])
    ∧ List.get? [Except.ok [1, 2], Except.error Error.BodyUsed,
        Except.ok ([3] : List Nat)] 0 = some (Except.ok [1, 2]) := by
  have h := fixedLength_counter_and_order
    { length := 10, bytes_read := 0,
      inner := [Except.ok [1, 2], Except.error Error.BodyUsed,
        Except.ok [3]] } 4
  exact ⟨h.1, h.2 0 [1, 2] (by rfl)⟩
